import Mathlib

/-!
Verification of the core privacy and network layers of the
Decentralized-Organic-Computing node (PrivacyManager and NetworkManager).

The TypeScript source is shallowly embedded:

* JavaScript `Map`s become association lists with first-occurrence lookup
  (`getKey`/`setKey`/`delKey`), and JavaScript `Set`s become duplicate-free
  lists with insertion-order append (`addMem`) and `delete` as filtering.
* JavaScript numbers used for trust scores and retention periods become `ℚ`;
  message timestamps become `Int` (JS truthiness of a number is `≠ 0`).
* Byte strings (UTF-8 plaintext, ciphertext, IVs, tags) become `List Nat`;
  the hex transport codec, a bijection on byte strings, is dropped.
* `JSON.stringify`/`JSON.parse` become a total serializer and a partial
  parser over an inductive `JsonVal` type, with a proved round-trip law.
* AES-256-GCM is modelled structurally as the counter-mode stream cipher it
  is (ciphertext = plaintext XOR keystream) together with a deterministic
  tag function over (key, iv, ciphertext); decryption checks the tag first
  and fails closed, exactly as `decipher.final()` does.
* `randomBytes` draws are passed in explicitly: a draw stream `Nat → List Nat`
  plus a per-state draw counter.
* Thrown exceptions become `Except`/`Option` results; emitted events become
  explicit event-list outputs.
-/

/-! ## Association lists (JavaScript `Map`) -/

/-- First-occurrence lookup in an association list, as JS `Map.get`. -/
def getKey {α : Type} (l : List (String × α)) (k : String) : Option α :=
  match l with
  | [] => none
  | (k', v) :: tl => if k' = k then some v else getKey tl k

/-- Update-or-append, as JS `Map.set`: replaces the first binding of `k`
if present, otherwise appends a new binding. -/
def setKey {α : Type} (l : List (String × α)) (k : String) (v : α) :
    List (String × α) :=
  match l with
  | [] => [(k, v)]
  | (k', v') :: tl => if k' = k then (k, v) :: tl else (k', v') :: setKey tl k v

/-- Removal of the first binding of `k`, as JS `Map.delete`. -/
def delKey {α : Type} (l : List (String × α)) (k : String) :
    List (String × α) :=
  match l with
  | [] => []
  | (k', v') :: tl => if k' = k then tl else (k', v') :: delKey tl k

theorem getKey_setKey_self {α : Type} (l : List (String × α)) (k : String) (v : α) :
    getKey (setKey l k v) k = some v := by
  induction l with
  | nil => simp [getKey, setKey]
  | cons hd tl ih =>
    obtain ⟨k', v'⟩ := hd
    by_cases h : k' = k
    · simp [getKey, setKey, h]
    · simp [getKey, setKey, h, ih]

theorem setKey_eq_self {α : Type} (l : List (String × α)) (k : String) (v : α)
    (h : getKey l k = some v) : setKey l k v = l := by
  induction l with
  | nil => simp [getKey] at h
  | cons hd tl ih =>
    obtain ⟨k', v'⟩ := hd
    by_cases hk : k' = k
    · simp [getKey, hk] at h
      simp [setKey, hk, h]
    · simp [getKey, hk] at h
      simp [setKey, hk, ih h]

theorem length_setKey_le {α : Type} (l : List (String × α)) (k : String) (v : α) :
    (setKey l k v).length ≤ l.length + 1 := by
  induction l with
  | nil => simp [setKey]
  | cons hd tl ih =>
    obtain ⟨k', v'⟩ := hd
    by_cases h : k' = k
    · simp [setKey, h]
    · simp [setKey, h]
      omega

theorem length_delKey_le {α : Type} (l : List (String × α)) (k : String) :
    (delKey l k).length ≤ l.length := by
  induction l with
  | nil => simp [delKey]
  | cons hd tl ih =>
    obtain ⟨k', v'⟩ := hd
    by_cases h : k' = k
    · simp [delKey, h]
    · simp [delKey, h]
      omega

/-! ## Privacy data model (`src/core/privacy`, `PrivacyManager`) -/

/-- `SharingPolicy` from the source: nodes allowed to access a data type,
whether consent is required, and the minimum trust threshold. -/
structure SharingPolicy where
  allowedNodes : List String
  requireConsent : Bool
  minimumTrust : ℚ
  deriving DecidableEq

/-- `PrivacyPolicy` from the source. -/
structure PrivacyPolicy where
  dataType : String
  allowedOperations : List String
  retentionPeriod : ℚ
  sharingPolicy : SharingPolicy
  deriving DecidableEq

/-- `EncryptedData` from the source (`data`/`iv`/`tag` hex strings), with
byte strings modelled as `List Nat`. -/
structure EncryptedData where
  data : List Nat
  iv : List Nat
  tag : List Nat
  deriving DecidableEq

/-- Events emitted by `PrivacyManager` that the claims mention. -/
inductive PEvent where
  | policyUpdated (dataType : String) (policy : PrivacyPolicy)
  | consentGranted (grantor grantee dataType : String)
  | consentRevoked (grantor grantee dataType : String)
  | errorEvt
  deriving DecidableEq

/-- The mutable stores of one `PrivacyManager` instance: `policies`,
`trustScores`, `consentRegistry` (keyed by the string `grantor ++ ":" ++
dataType`, exactly as the source builds its consent keys), the process-held
symmetric key, and the number of random draws made so far. -/
structure PrivState where
  policies : List (String × PrivacyPolicy)
  trustScores : List (String × ℚ)
  consentRegistry : List (String × List String)
  key : List Nat
  rngCounter : Nat
  deriving DecidableEq

/-- A fresh `PrivacyManager`: all three stores empty. -/
def initPriv (key : List Nat) : PrivState :=
  { policies := [], trustScores := [], consentRegistry := [], key := key,
    rngCounter := 0 }

/-- `validatePolicy` + `setPolicy`: the validator throws when `dataType` is
falsy (the empty string) or `retentionPeriod ≤ 0`. The `!policy.allowedOperations`
test in the source checks only that the array is present, which the typed
interface guarantees, so it never fires: an empty `allowedOperations` array
is truthy in JavaScript and passes validation. On success the policy is
stored under the `dataType` argument and `policyUpdated` is emitted. -/
def setPolicy (st : PrivState) (dataType : String) (policy : PrivacyPolicy) :
    Except String (PrivState × List PEvent) :=
  if policy.dataType = "" then
    Except.error "Invalid policy: missing required fields"
  else if policy.retentionPeriod ≤ 0 then
    Except.error "Invalid policy: retention period must be positive"
  else
    Except.ok ({ st with policies := setKey st.policies dataType policy },
      [PEvent.policyUpdated dataType policy])

/-- `trustScores.get(nodeId) || 0`: absent entries read as 0 (a stored 0 is
falsy in JS but `0 || 0` is again 0). -/
def trustScoreOf (st : PrivState) (nodeId : String) : ℚ :=
  (getKey st.trustScores nodeId).getD 0

/-- The consent set stored under `nodeId ++ ":" ++ dataType`, empty when the
key is absent. -/
def consentSetOf (st : PrivState) (nodeId dataType : String) : List String :=
  (getKey st.consentRegistry (nodeId ++ ":" ++ dataType)).getD []

/-- `checkConsent`: the set under the requesting node's own key is non-empty. -/
def checkConsent (st : PrivState) (nodeId dataType : String) : Bool :=
  decide (consentSetOf st nodeId dataType ≠ [])

/-- `checkPermission`: pure read of the three stores, conjunction of the
policy/operation/node/trust/consent gates exactly as in the source. -/
def checkPermission (st : PrivState) (nodeId dataType operation : String) : Bool :=
  match getKey st.policies dataType with
  | none => false
  | some policy =>
      decide (operation ∈ policy.allowedOperations) &&
      decide (nodeId ∈ policy.sharingPolicy.allowedNodes) &&
      decide (policy.sharingPolicy.minimumTrust ≤ trustScoreOf st nodeId) &&
      (!policy.sharingPolicy.requireConsent || checkConsent st nodeId dataType)

/-- JS `Set.add`: append if absent, keep insertion order. -/
def addMem (l : List String) (x : String) : List String :=
  if x ∈ l then l else l ++ [x]

/-- `grantConsent`: ensure the key exists, add the grantee to its set, emit
`consentGranted`. -/
def grantConsent (st : PrivState) (grantor grantee dataType : String) :
    PrivState × List PEvent :=
  let key := grantor ++ ":" ++ dataType
  let s := (getKey st.consentRegistry key).getD []
  ({ st with consentRegistry := setKey st.consentRegistry key (addMem s grantee) },
   [PEvent.consentGranted grantor grantee dataType])

/-- `revokeConsent`: delete the grantee from the set when the key exists
(`?.delete` is a no-op on an absent key), emit `consentRevoked`. -/
def revokeConsent (st : PrivState) (grantor grantee dataType : String) :
    PrivState × List PEvent :=
  let key := grantor ++ ":" ++ dataType
  let st' :=
    match getKey st.consentRegistry key with
    | none => st
    | some s =>
        { st with consentRegistry :=
            setKey st.consentRegistry key (s.filter (fun x => x ≠ grantee)) }
  (st', [PEvent.consentRevoked grantor grantee dataType])

/-! ## JSON values and the `JSON.stringify` / `JSON.parse` model

The source serializes arbitrary structured payloads with `JSON.stringify`
before encryption and re-parses them with `JSON.parse` after decryption.
Modelled from the spec: those two built-ins are not part of this repository;
they are modelled as a total serializer to a token list and a partial
parser, with the round-trip law proved below. The concrete token format is
irrelevant to the code, which treats the serialized form as an opaque byte
string fed to the cipher. -/

/-- A JSON-serializable value. -/
inductive JsonVal where
  | null
  | bool (b : Bool)
  | num (n : Int)
  | str (s : String)
  | arr (xs : List JsonVal)
  | obj (fs : List (String × JsonVal))

mutual

/-- Serializer for one JSON value (the `JSON.stringify` model). -/
def serVal : JsonVal → List Nat
  | .null => [0]
  | .bool b => [1, cond b 1 0]
  | .num n => [2, cond (decide (n < 0)) 1 0, n.natAbs]
  | .str s => 3 :: s.data.length :: s.data.map Char.toNat
  | .arr xs => 4 :: xs.length :: serVals xs
  | .obj fs => 5 :: fs.length :: serFields fs

/-- Serializer for an array's elements, in order. -/
def serVals : List JsonVal → List Nat
  | [] => []
  | v :: tl => serVal v ++ serVals tl

/-- Serializer for an object's key/value fields, in order. -/
def serFields : List (String × JsonVal) → List Nat
  | [] => []
  | (k, v) :: tl => k.data.length :: (k.data.map Char.toNat ++ (serVal v ++ serFields tl))

end

/-- Take exactly `n` leading tokens, returning them and the remainder. -/
def takeExact {α : Type} (n : Nat) (l : List α) : Option (List α × List α) :=
  match n, l with
  | 0, l => some ([], l)
  | _ + 1, [] => none
  | n + 1, x :: tl => (takeExact n tl).map (fun p => (x :: p.1, p.2))

/-- Rebuild a string from character codes. -/
def strOfCodes (l : List Nat) : String :=
  String.mk (l.map Char.ofNat)

mutual

/-- Fuel-bounded parser for one JSON value (the `JSON.parse` model). -/
def parseVal : Nat → List Nat → Option (JsonVal × List Nat)
  | 0, _ => none
  | _ + 1, 0 :: rest => some (.null, rest)
  | _ + 1, 1 :: b :: rest => some (.bool (b == 1), rest)
  | _ + 1, 2 :: s :: m :: rest =>
      some (.num (if s == 1 then -(m : Int) else (m : Int)), rest)
  | _ + 1, 3 :: len :: rest =>
      (takeExact len rest).map (fun p => (.str (strOfCodes p.1), p.2))
  | fuel + 1, 4 :: count :: rest =>
      (parseVals fuel count rest).map (fun p => (.arr p.1, p.2))
  | fuel + 1, 5 :: count :: rest =>
      (parseFields fuel count rest).map (fun p => (.obj p.1, p.2))
  | _ + 1, _ => none
termination_by fuel _ => (fuel, 0)

/-- Parse exactly `count` array elements. -/
def parseVals : Nat → Nat → List Nat → Option (List JsonVal × List Nat)
  | _, 0, rest => some ([], rest)
  | fuel, c + 1, rest =>
      (parseVal fuel rest).bind (fun p =>
        (parseVals fuel c p.2).map (fun q => (p.1 :: q.1, q.2)))
termination_by fuel c _ => (fuel, c + 1)

/-- Parse exactly `count` object fields. -/
def parseFields : Nat → Nat → List Nat → Option (List (String × JsonVal) × List Nat)
  | _, 0, rest => some ([], rest)
  | fuel, c + 1, rest =>
      match rest with
      | [] => none
      | klen :: rest1 =>
          (takeExact klen rest1).bind (fun kp =>
            (parseVal fuel kp.2).bind (fun p =>
              (parseFields fuel c p.2).map (fun q =>
                ((strOfCodes kp.1, p.1) :: q.1, q.2))))
termination_by fuel c _ => (fuel, c + 1)

end

/-- `JSON.parse` of a whole document: the parse must consume every token. -/
def jsonParse (l : List Nat) : Option JsonVal :=
  match parseVal (l.length + 1) l with
  | some (v, []) => some v
  | _ => none

mutual

/-- Number of JSON nodes in a value; the parser needs this much fuel. -/
def sizeV : JsonVal → Nat
  | .null => 1
  | .bool _ => 1
  | .num _ => 1
  | .str _ => 1
  | .arr xs => 1 + sizeL xs
  | .obj fs => 1 + sizeF fs

/-- Total node count of an array's elements. -/
def sizeL : List JsonVal → Nat
  | [] => 0
  | v :: tl => sizeV v + sizeL tl

/-- Total node count of an object's field values. -/
def sizeF : List (String × JsonVal) → Nat
  | [] => 0
  | (_, v) :: tl => sizeV v + sizeF tl

end

theorem sizeV_pos (v : JsonVal) : 1 ≤ sizeV v := by
  cases v <;> simp [sizeV]

mutual

theorem sizeV_le (v : JsonVal) : sizeV v ≤ (serVal v).length := by
  cases v with
  | null => simp [sizeV, serVal]
  | bool b => simp [sizeV, serVal]
  | num n => simp [sizeV, serVal]
  | str s => simp [sizeV, serVal]
  | arr xs =>
    have := sizeL_le xs
    simp [sizeV, serVal]
    omega
  | obj fs =>
    have := sizeF_le fs
    simp [sizeV, serVal]
    omega

theorem sizeL_le (xs : List JsonVal) : sizeL xs ≤ (serVals xs).length := by
  cases xs with
  | nil => simp [sizeL, serVals]
  | cons v tl =>
    have h1 := sizeV_le v
    have h2 := sizeL_le tl
    simp [sizeL, serVals]
    omega

theorem sizeF_le (fs : List (String × JsonVal)) : sizeF fs ≤ (serFields fs).length := by
  cases fs with
  | nil => simp [sizeF, serFields]
  | cons p tl =>
    obtain ⟨k, v⟩ := p
    have h1 := sizeV_le v
    have h2 := sizeF_le tl
    simp [sizeF, serFields]
    omega

end

theorem sizeV_le_sizeL {v : JsonVal} {xs : List JsonVal} (h : v ∈ xs) :
    sizeV v ≤ sizeL xs := by
  induction xs with
  | nil => simp at h
  | cons hd tl ih =>
    rcases List.mem_cons.mp h with h | h
    · subst h
      simp [sizeL]
    · have := ih h
      simp [sizeL]
      omega

theorem sizeV_le_sizeF {p : String × JsonVal} {fs : List (String × JsonVal)}
    (h : p ∈ fs) : sizeV p.2 ≤ sizeF fs := by
  induction fs with
  | nil => simp at h
  | cons hd tl ih =>
    obtain ⟨k, v⟩ := hd
    rcases List.mem_cons.mp h with h | h
    · subst h
      simp [sizeF]
    · have := ih h
      simp [sizeF]
      omega

theorem takeExact_append {α : Type} (l rest : List α) :
    takeExact l.length (l ++ rest) = some (l, rest) := by
  induction l with
  | nil => simp [takeExact]
  | cons x tl ih => simp [takeExact, ih]

theorem strOfCodes_codes (s : String) :
    strOfCodes (s.data.map Char.toNat) = s := by
  simp [strOfCodes, List.map_map, Function.comp_def, Char.ofNat_toNat]

theorem parseVals_ser (fuel : Nat) (xs : List JsonVal)
    (h : ∀ v ∈ xs, ∀ r, parseVal fuel (serVal v ++ r) = some (v, r)) :
    ∀ rest, parseVals fuel xs.length (serVals xs ++ rest) = some (xs, rest) := by
  induction xs with
  | nil => intro rest; simp [serVals, parseVals]
  | cons v tl ih =>
    intro rest
    have hv := h v (by simp) (serVals tl ++ rest)
    have htl := ih (fun w hw r => h w (by simp [hw]) r)
    simp [serVals, parseVals, List.append_assoc, hv, htl]

theorem parseFields_ser (fuel : Nat) (fs : List (String × JsonVal))
    (h : ∀ p ∈ fs, ∀ r, parseVal fuel (serVal p.2 ++ r) = some (p.2, r)) :
    ∀ rest, parseFields fuel fs.length (serFields fs ++ rest) = some (fs, rest) := by
  induction fs with
  | nil => intro rest; simp [serFields, parseFields]
  | cons p tl ih =>
    obtain ⟨k, v⟩ := p
    intro rest
    have hv := h (k, v) (by simp) (serFields tl ++ rest)
    have htl := ih (fun w hw r => h w (by simp [hw]) r)
    have hk : takeExact k.length
        (List.map Char.toNat k.data ++ (serVal v ++ (serFields tl ++ rest)))
        = some (List.map Char.toNat k.data, serVal v ++ (serFields tl ++ rest)) := by
      have := takeExact_append (List.map Char.toNat k.data)
        (serVal v ++ (serFields tl ++ rest))
      simpa using this
    simp [serFields, parseFields, List.append_assoc, hk, hv, htl,
      strOfCodes_codes]

theorem parseVal_ser (fuel : Nat) :
    ∀ (v : JsonVal) (rest : List Nat),
      sizeV v ≤ fuel → parseVal fuel (serVal v ++ rest) = some (v, rest) := by
  induction fuel with
  | zero =>
    intro v rest h
    have := sizeV_pos v
    omega
  | succ fuel ih =>
    intro v rest h
    cases v with
    | null => simp [serVal, parseVal]
    | bool b => cases b <;> simp [serVal, parseVal]
    | num n =>
      by_cases hn : n < 0
      · simp [serVal, parseVal, hn]
        rw [abs_of_neg hn, neg_neg]
      · simp [serVal, parseVal, hn]
        omega
    | str s =>
      have h1 : takeExact s.length (List.map Char.toNat s.data ++ rest)
          = some (List.map Char.toNat s.data, rest) := by
        have := takeExact_append (List.map Char.toNat s.data) rest
        simpa using this
      simp [serVal, parseVal, h1, strOfCodes_codes]
    | arr xs =>
      have hfs : sizeL xs ≤ fuel := by
        simp [sizeV] at h
        omega
      have hx : ∀ w ∈ xs, ∀ r, parseVal fuel (serVal w ++ r) = some (w, r) := by
        intro w hw r
        exact ih w r (le_trans (sizeV_le_sizeL hw) hfs)
      simp [serVal, parseVal, parseVals_ser fuel xs hx rest]
    | obj fs =>
      have hfs : sizeF fs ≤ fuel := by
        simp [sizeV] at h
        omega
      have hx : ∀ p ∈ fs, ∀ r, parseVal fuel (serVal p.2 ++ r) = some (p.2, r) := by
        intro p hp r
        exact ih p.2 r (le_trans (sizeV_le_sizeF hp) hfs)
      simp [serVal, parseVal, parseFields_ser fuel fs hx rest]

/-- Round-trip law for the JSON model: parsing a serialized value returns it. -/
theorem jsonParse_serVal (v : JsonVal) : jsonParse (serVal v) = some v := by
  have h : parseVal ((serVal v).length + 1) (serVal v ++ []) = some (v, []) :=
    parseVal_ser _ v [] (le_trans (sizeV_le v) (Nat.le_succ _))
  simp at h
  simp [jsonParse, h]

/-! ## Authenticated encryption model (AES-256-GCM via Node `crypto`)

Modelled from the spec: the cipher itself lives in Node's standard library,
not in this repository. GCM is counter mode plus a tag: the ciphertext is
the plaintext XORed with a keystream determined by (key, iv), and the
authentication tag is a deterministic function of (key, iv, ciphertext).
Both the keystream and the tag function below are concrete executable
stand-ins with exactly those dependencies; every theorem uses only the
structure (XOR involution, tag determinism), not any property of the
particular mixing arithmetic. -/

/-- Fold a byte string into one mixing value. -/
def mixFold (l : List Nat) (seed : Nat) : Nat :=
  l.foldl (fun a b => a * 257 + b + 1) seed

/-- Keystream byte `i` for a given key and iv. -/
def ksByte (key iv : List Nat) (i : Nat) : Nat :=
  (mixFold key 7 + mixFold iv 11 + i * 131) % 256

/-- Counter-mode transform: XOR each byte with the keystream. Applying it
twice from the same counter is the identity, which is exactly how GCM
decryption inverts encryption. -/
def ctrXor (key iv : List Nat) : Nat → List Nat → List Nat
  | _, [] => []
  | i, b :: bs => (b ^^^ ksByte key iv i) :: ctrXor key iv (i + 1) bs

/-- The 16-byte authentication tag over (key, iv, ciphertext), as
`cipher.getAuthTag()` produces and `decipher.setAuthTag` + `final` check. -/
def gcmTag (key iv ct : List Nat) : List Nat :=
  (List.range 16).map (fun j =>
    (mixFold key 3 + mixFold iv 5 + mixFold ct 9 + j) % 256)

theorem ctrXor_ctrXor (key iv : List Nat) :
    ∀ (i : Nat) (bs : List Nat), ctrXor key iv i (ctrXor key iv i bs) = bs := by
  intro i bs
  induction bs generalizing i with
  | nil => simp [ctrXor]
  | cons b tl ih =>
    simp [ctrXor, ih, Nat.xor_assoc]

theorem length_gcmTag (key iv ct : List Nat) : (gcmTag key iv ct).length = 16 := by
  simp [gcmTag]

/-- `encryptData(data, dataType)`: fails closed when no policy exists for
the data type; otherwise draws a fresh iv from the stream (advancing the
draw counter), serializes the payload, encrypts it in counter mode and
returns the envelope with the authentication tag. -/
def encryptData (rng : Nat → List Nat) (st : PrivState) (data : JsonVal)
    (dataType : String) : Option EncryptedData × PrivState :=
  match getKey st.policies dataType with
  | none => (none, st)
  | some _ =>
      let iv := rng st.rngCounter
      let ct := ctrXor st.key iv 0 (serVal data)
      (some { data := ct, iv := iv, tag := gcmTag st.key iv ct },
       { st with rngCounter := st.rngCounter + 1 })

/-- `decryptData(envelope)`: authenticate first (`decipher.final()` throws
on a tag mismatch, caught into a null return plus an `error` event), then
decrypt and `JSON.parse` the plaintext, any failure again returning the
null sentinel with an `error` event. No partial plaintext is ever
returned. -/
def decryptData (st : PrivState) (env : EncryptedData) :
    Option JsonVal × List PEvent :=
  if env.tag = gcmTag st.key env.iv env.data then
    match jsonParse (ctrXor st.key env.iv 0 env.data) with
    | some v => (some v, [])
    | none => (none, [PEvent.errorEvt])
  else (none, [PEvent.errorEvt])

/-- Flip bit `j` of byte `i` of a byte string. -/
def flipBit (l : List Nat) (i j : Nat) : List Nat :=
  l.set i (l.getD i 0 ^^^ 2 ^ j)

theorem flipBit_ne (l : List Nat) (i j : Nat) (hi : i < l.length) :
    flipBit l i j ≠ l := by
  intro h
  have hget : (flipBit l i j).getD i 0 = l.getD i 0 := by rw [h]
  have hset : (flipBit l i j).getD i 0 = l.getD i 0 ^^^ 2 ^ j := by
    simp [flipBit, List.getD, List.getElem?_set, hi]
  rw [hset] at hget
  have h2 : (2 : Nat) ^ j ≠ 0 := pow_ne_zero j (by omega)
  have h3 := congrArg (fun z => l.getD i 0 ^^^ z) hget
  simp only [← Nat.xor_assoc, Nat.xor_self, Nat.zero_xor] at h3
  exact h2 h3

/-! ## Network data model (`src/core/network`, `NetworkManager`) -/

/-- A wire `Message`. The `type` field is a string at runtime (inbound
messages come from `JSON.parse`, which performs no enum check); `timestamp`
is optional because a parsed object may lack the field, and JS truthiness
then sees `undefined`. `payload` and `signature` are carried but never
inspected by the network layer. -/
structure Message where
  id : String
  type : String
  sender : String
  recipient : String
  payload : Option JsonVal
  timestamp : Option Int
  signature : Option String

/-- JS truthiness of a string: non-empty. -/
def truthyStr (s : String) : Bool := !(s == "")

/-- `validateMessage`: the source chains `message.id && message.type &&
message.sender && message.recipient && message.timestamp && message.timestamp
<= Date.now()`. A present numeric `timestamp` is truthy exactly when it is
non-zero, so `timestamp = 0` fails the chain. -/
def validateMessage (m : Message) (now : Int) : Bool :=
  truthyStr m.id && truthyStr m.type && truthyStr m.sender &&
  truthyStr m.recipient &&
  (match m.timestamp with
   | none => false
   | some t => (t != 0) && decide (t ≤ now))

/-- The validation contract as the spec words it ("`id`, `type`, `sender`,
`recipient` all non-empty, `timestamp` present and `≤ now`"), written for
comparison against `validateMessage`. -/
def validateMessageClaimed (m : Message) (now : Int) : Bool :=
  truthyStr m.id && truthyStr m.type && truthyStr m.sender &&
  truthyStr m.recipient &&
  (match m.timestamp with
   | none => false
   | some t => decide (t ≤ now))

/-- Events emitted by `NetworkManager` that the claims mention. -/
inductive NEvent where
  | nodeConnected (nodeId : String)
  | nodeDisconnected (nodeId : String)
  | messageReceived (nodeId : String) (m : Message)
  | messageSent (m : Message)
  | resourceRequest (m : Message)
  | dataShare (m : Message)
  | patternUpdate (m : Message)
  | consensusRequest (m : Message)
  | nodeDiscovery (m : Message)
  | unknownMessageType (m : Message)
  | errorEvt

/-- Construction-time configuration of a `NetworkManager`. -/
structure NetConfig where
  port : Nat
  maxConnections : Nat
  discoveryInterval : Nat
  heartbeatInterval : Nat

/-- `WebSocket.OPEN`. -/
def WS_OPEN : Nat := 1

/-- A live transport handle: its `readyState` and whether `send` would
throw at the transport level. -/
structure Conn where
  readyState : Nat
  sendFails : Bool

/-- The `NetworkManager` state the claims touch: the ConnectionTable and
the per-connection heartbeat registrations. -/
structure NetState where
  connections : List (String × Conn)
  heartbeats : List String

/-- A freshly constructed `NetworkManager`: empty tables. -/
def initNet : NetState := { connections := [], heartbeats := [] }

/-- `handleConnection`: at or above `maxConnections` the transport is
closed (`ws.close(1013, ...)`, the returned flag) and nothing else happens;
otherwise the connection is registered, its heartbeat started, and
`nodeConnected` emitted. -/
def handleConnection (cfg : NetConfig) (st : NetState) (nodeId : String)
    (c : Conn) : NetState × List NEvent × Bool :=
  if st.connections.length ≥ cfg.maxConnections then
    (st, [], true)
  else
    ({ connections := setKey st.connections nodeId c,
       heartbeats := nodeId :: st.heartbeats },
     [NEvent.nodeConnected nodeId], false)

/-- `handleDisconnection`: clear the heartbeat, drop the table entry, emit
`nodeDisconnected`. -/
def handleDisconnection (st : NetState) (nodeId : String) :
    NetState × List NEvent :=
  ({ connections := delKey st.connections nodeId,
     heartbeats := st.heartbeats.filter (fun x => x ≠ nodeId) },
   [NEvent.nodeDisconnected nodeId])

/-- `sendMessage`: look up the recipient; absent or non-open connections
yield `false` with no event; an open connection transmits and emits
`messageSent`, unless the transport `send` throws, which is caught, emitted
as `error`, and reported as `false`. The ConnectionTable is returned
unchanged in every case. -/
def sendMessage (st : NetState) (m : Message) : Bool × NetState × List NEvent :=
  match getKey st.connections m.recipient with
  | none => (false, st, [])
  | some c =>
      if c.readyState ≠ WS_OPEN then (false, st, [])
      else if c.sendFails then (false, st, [NEvent.errorEvt])
      else (true, st, [NEvent.messageSent m])

/-- The `switch (message.type)` dispatch: the five handled literals emit
their handler events; everything else, `RESOURCE_RESPONSE` included, falls
through to `unknownMessageType`. -/
def dispatchEvents (m : Message) : List NEvent :=
  if m.type = "RESOURCE_REQUEST" then [NEvent.resourceRequest m]
  else if m.type = "DATA_SHARE" then [NEvent.dataShare m]
  else if m.type = "PATTERN_UPDATE" then [NEvent.patternUpdate m]
  else if m.type = "CONSENSUS_REQUEST" then [NEvent.consensusRequest m]
  else if m.type = "NODE_DISCOVERY" then [NEvent.nodeDiscovery m]
  else [NEvent.unknownMessageType m]

/-- `handleMessage`: a failed parse or failed validation throws inside the
`try`, caught into an `error` event; a validated message is dispatched by
type and then `messageReceived` is emitted for it unconditionally. -/
def handleMessage (now : Int) (nodeId : String) (raw : Option Message) :
    List NEvent :=
  match raw with
  | none => [NEvent.errorEvt]
  | some m =>
      if validateMessage m now then
        dispatchEvents m ++ [NEvent.messageReceived nodeId m]
      else [NEvent.errorEvt]

/-- The read-only snapshot returned by `getNetworkStats`. -/
structure NetStats where
  connectedNodes : Nat
  maxConnections : Nat
  activeConnections : List String

/-- `getNetworkStats`. -/
def getNetworkStats (cfg : NetConfig) (st : NetState) : NetStats :=
  { connectedNodes := st.connections.length,
    maxConnections := cfg.maxConnections,
    activeConnections := st.connections.map (fun p => p.1) }

/-- The operations that can reach a `NetworkManager` state: an accepted
transport (with its locally generated id), a disconnection (close handler,
heartbeat failure, or `disconnect()` teardown, all of which run
`handleDisconnection`), an outbound send, and an inbound frame. These are
the only code paths that touch the ConnectionTable. -/
inductive NetOp where
  | accept (nodeId : String) (c : Conn)
  | close (nodeId : String)
  | send (m : Message)
  | recv (now : Int) (nodeId : String) (raw : Option Message)

/-- One step of the network state machine. -/
def netStep (cfg : NetConfig) (st : NetState) (op : NetOp) : NetState :=
  match op with
  | .accept nodeId c => (handleConnection cfg st nodeId c).1
  | .close nodeId => (handleDisconnection st nodeId).1
  | .send m => (sendMessage st m).2.1
  | .recv _ _ _ => st

/-- Run a sequence of operations from the freshly constructed manager. -/
def netRun (cfg : NetConfig) (ops : List NetOp) : NetState :=
  ops.foldl (netStep cfg) initNet

/-! ## Claim theorems -/

/-- Claim C1: `checkPermission(nodeId, dataType, operation)` returns true
iff a policy exists for the data type, the operation is allowed, the node
is in `sharingPolicy.allowedNodes`, its trust score (0 when absent) meets
`minimumTrust`, and either consent is not required or the consent set keyed
by `(nodeId, dataType)` — the requesting node's own grant registry — is
non-empty. The embedding of the call is a pure function of the state, so
it has no side effects on any store. -/
theorem checkPermission_true_iff (st : PrivState)
    (nodeId dataType operation : String) :
    checkPermission st nodeId dataType operation = true ↔
      ∃ policy, getKey st.policies dataType = some policy ∧
        operation ∈ policy.allowedOperations ∧
        nodeId ∈ policy.sharingPolicy.allowedNodes ∧
        policy.sharingPolicy.minimumTrust ≤ trustScoreOf st nodeId ∧
        (policy.sharingPolicy.requireConsent = false ∨
          consentSetOf st nodeId dataType ≠ []) := by
  cases h : getKey st.policies dataType with
  | none => simp [checkPermission, h]
  | some policy =>
      simp [checkPermission, h, checkConsent, Bool.and_eq_true,
        Bool.or_eq_true, Bool.not_eq_true', decide_eq_true_eq, and_assoc]

/-- Claim C4 counterexample: a message whose fields are all non-empty and
whose timestamp is present, equal to 0, and not in the future satisfies the
acceptance condition the claim states, yet `validateMessage` rejects it:
`message.timestamp` is falsy in JavaScript when it is 0, so the `&&` chain
fails. -/
theorem validateMessage_zero_timestamp_cex :
    validateMessageClaimed
      { id := "m1", type := "DATA_SHARE", sender := "a", recipient := "b",
        payload := none, timestamp := some 0, signature := none } 1000 = true ∧
    validateMessage
      { id := "m1", type := "DATA_SHARE", sender := "a", recipient := "b",
        payload := none, timestamp := some 0, signature := none } 1000 = false := by
  constructor <;> rfl

/-- Claim C4 amended: `validateMessage` accepts a message iff `id`, `type`,
`sender` and `recipient` are non-empty and `timestamp` is present,
non-zero, and at most the current time. In particular a timestamp 1 second
in the future is rejected, but so is the present timestamp 0, which the
original claim said was accepted. -/
theorem validateMessage_true_iff (m : Message) (now : Int) :
    validateMessage m now = true ↔
      (m.id ≠ "" ∧ m.type ≠ "" ∧ m.sender ≠ "" ∧ m.recipient ≠ "" ∧
       ∃ t, m.timestamp = some t ∧ t ≠ 0 ∧ t ≤ now) := by
  cases ht : m.timestamp with
  | none => simp [validateMessage, truthyStr, ht]
  | some t =>
      simp [validateMessage, truthyStr, ht, Bool.and_eq_true,
        decide_eq_true_eq, and_assoc]

/-- Claim C5 counterexample: a policy with non-empty `dataType`, positive
`retentionPeriod`, and an **empty** `allowedOperations` array is accepted
by `setPolicy` — stored and `policyUpdated` emitted — because
`!policy.allowedOperations` in `validatePolicy` tests only presence of the
array (an empty array is truthy in JavaScript), while the claim says such
a policy must be rejected with `InvalidPolicy`. -/
theorem setPolicy_emptyOps_cex :
    setPolicy (initPriv []) "temp"
      { dataType := "temp", allowedOperations := [], retentionPeriod := 3600,
        sharingPolicy :=
          { allowedNodes := [], requireConsent := false, minimumTrust := 0 } }
    = Except.ok
        ({ initPriv [] with policies :=
            [("temp",
              { dataType := "temp", allowedOperations := [],
                retentionPeriod := 3600,
                sharingPolicy :=
                  { allowedNodes := [], requireConsent := false,
                    minimumTrust := 0 } })] },
         [PEvent.policyUpdated "temp"
            { dataType := "temp", allowedOperations := [],
              retentionPeriod := 3600,
              sharingPolicy :=
                { allowedNodes := [], requireConsent := false,
                  minimumTrust := 0 } }]) := by
  rfl

/-- Claim C5 amended: `setPolicy(dataType, policy)` fails with
`InvalidPolicy` (storing nothing and emitting nothing, since the throw
precedes the store) exactly when `policy.dataType` is empty or
`retentionPeriod ≤ 0`; otherwise it stores the policy under the `dataType`
argument and emits `policyUpdated`. An empty `allowedOperations` array is
not rejected. -/
theorem setPolicy_spec (st : PrivState) (dt : String) (p : PrivacyPolicy) :
    ((∃ e, setPolicy st dt p = Except.error e) ↔
      (p.dataType = "" ∨ p.retentionPeriod ≤ 0)) ∧
    (p.dataType ≠ "" → ¬ p.retentionPeriod ≤ 0 →
      setPolicy st dt p = Except.ok
        ({ st with policies := setKey st.policies dt p },
         [PEvent.policyUpdated dt p])) := by
  constructor
  · by_cases h1 : p.dataType = ""
    · simp [setPolicy, h1]
    · by_cases h2 : p.retentionPeriod ≤ 0 <;> simp [setPolicy, h1, h2]
  · intro h1 h2
    simp [setPolicy, h1, h2]

/-- Witness for C5's amended theorem: a concrete valid policy is stored and
`policyUpdated` emitted. -/
theorem setPolicy_spec_witness :
    setPolicy (initPriv []) "loc"
      { dataType := "loc", allowedOperations := ["read"],
        retentionPeriod := 3600,
        sharingPolicy :=
          { allowedNodes := ["B"], requireConsent := true,
            minimumTrust := 1/2 } }
    = Except.ok
        ({ initPriv [] with policies :=
            (setKey (initPriv []).policies "loc"
              { dataType := "loc", allowedOperations := ["read"],
                retentionPeriod := 3600,
                sharingPolicy :=
                  { allowedNodes := ["B"], requireConsent := true,
                    minimumTrust := 1/2 } }) },
         [PEvent.policyUpdated "loc"
            { dataType := "loc", allowedOperations := ["read"],
              retentionPeriod := 3600,
              sharingPolicy :=
                { allowedNodes := ["B"], requireConsent := true,
                  minimumTrust := 1/2 } }]) :=
  (setPolicy_spec (initPriv []) "loc" _).2 (by decide) (by decide)

theorem sendMessage_st_eq (st : NetState) (m : Message) :
    (sendMessage st m).2.1 = st := by
  unfold sendMessage
  cases getKey st.connections m.recipient with
  | none => rfl
  | some c =>
      by_cases h1 : c.readyState ≠ WS_OPEN
      · simp [h1]
      · by_cases h2 : c.sendFails <;> simp [h1, h2]

theorem netStep_preserves_cap (cfg : NetConfig) (st : NetState) (op : NetOp)
    (h : st.connections.length ≤ cfg.maxConnections) :
    (netStep cfg st op).connections.length ≤ cfg.maxConnections := by
  cases op with
  | accept nodeId c =>
      by_cases hcap : st.connections.length ≥ cfg.maxConnections
      · simpa [netStep, handleConnection, hcap] using h
      · simp [netStep, handleConnection, hcap]
        have := length_setKey_le st.connections nodeId c
        omega
  | close nodeId =>
      simp [netStep, handleDisconnection]
      have := length_delKey_le st.connections nodeId
      omega
  | send m => simpa [netStep, sendMessage_st_eq] using h
  | recv now nodeId raw => simpa [netStep] using h

theorem netRun_cap_from (cfg : NetConfig) (ops : List NetOp) :
    ∀ st : NetState, st.connections.length ≤ cfg.maxConnections →
      (ops.foldl (netStep cfg) st).connections.length ≤ cfg.maxConnections := by
  induction ops with
  | nil => intro st h; simpa using h
  | cons op tl ih =>
      intro st h
      exact ih _ (netStep_preserves_cap cfg st op h)

/-- Claim C6: in every state reachable from the fresh manager, the live
connection count never exceeds `maxConnections` — so
`getNetworkStats().connectedNodes ≤ maxConnections` — and an accept that
arrives at or above capacity closes the new transport (the `true` flag of
`ws.close(1013, ...)`) without registering it, starting a heartbeat, or
emitting any event. -/
theorem connection_cap_spec (cfg : NetConfig) (ops : List NetOp) :
    (getNetworkStats cfg (netRun cfg ops)).connectedNodes ≤ cfg.maxConnections ∧
    (∀ (st : NetState) (nodeId : String) (c : Conn),
      st.connections.length ≥ cfg.maxConnections →
      handleConnection cfg st nodeId c = (st, [], true)) := by
  constructor
  · have h0 : initNet.connections.length ≤ cfg.maxConnections := by
      simp [initNet]
    simpa [getNetworkStats, netRun] using netRun_cap_from cfg ops initNet h0
  · intro st nodeId c h
    simp [handleConnection, h]

/-- Witness for C6: with `maxConnections = 1`, two accepted transports
leave one live connection, and a concrete accept at capacity returns the
table unchanged with no events and the transport closed. -/
theorem connection_cap_spec_witness :
    (getNetworkStats
        { port := 1, maxConnections := 1, discoveryInterval := 1,
          heartbeatInterval := 1 }
        (netRun
          { port := 1, maxConnections := 1, discoveryInterval := 1,
            heartbeatInterval := 1 }
          [NetOp.accept "a" { readyState := 1, sendFails := false },
           NetOp.accept "b" { readyState := 1, sendFails := false }])).connectedNodes
      ≤ 1 ∧
    handleConnection
      { port := 1, maxConnections := 1, discoveryInterval := 1,
        heartbeatInterval := 1 }
      { connections := [("a", { readyState := 1, sendFails := false })],
        heartbeats := ["a"] } "b" { readyState := 1, sendFails := false }
      = ({ connections := [("a", { readyState := 1, sendFails := false })],
           heartbeats := ["a"] }, [], true) :=
  ⟨(connection_cap_spec _ _).1,
   (connection_cap_spec
      { port := 1, maxConnections := 1, discoveryInterval := 1,
        heartbeatInterval := 1 } []).2
      { connections := [("a", { readyState := 1, sendFails := false })],
        heartbeats := ["a"] } "b" { readyState := 1, sendFails := false }
      (by decide)⟩

/-- Claim C7: `sendMessage` returns false with no event when the recipient
is absent from the ConnectionTable or its connection is not open; transmits
and emits `messageSent` with a true return when the connection is open; and
catches a transport-level send failure as an `error` event with a false
return. It never throws (the embedding is total), and the ConnectionTable
is unchanged in every case. -/
theorem sendMessage_spec (st : NetState) (m : Message) :
    (sendMessage st m).2.1 = st ∧
    (getKey st.connections m.recipient = none →
      sendMessage st m = (false, st, [])) ∧
    (∀ c : Conn, getKey st.connections m.recipient = some c →
      c.readyState ≠ WS_OPEN → sendMessage st m = (false, st, [])) ∧
    (∀ c : Conn, getKey st.connections m.recipient = some c →
      c.readyState = WS_OPEN → c.sendFails = false →
      sendMessage st m = (true, st, [NEvent.messageSent m])) ∧
    (∀ c : Conn, getKey st.connections m.recipient = some c →
      c.readyState = WS_OPEN → c.sendFails = true →
      sendMessage st m = (false, st, [NEvent.errorEvt])) := by
  refine ⟨sendMessage_st_eq st m, ?_, ?_, ?_, ?_⟩
  · intro h
    simp [sendMessage, h]
  · intro c hc h
    simp [sendMessage, hc, h]
  · intro c hc h1 h2
    simp [sendMessage, hc, h1, h2]
  · intro c hc h1 h2
    simp [sendMessage, hc, h1, h2]

/-- Witness for C7: a send to a peer absent from the empty table returns
false with no event, and a send to a concrete open connection returns true
and emits `messageSent`. -/
theorem sendMessage_spec_witness :
    sendMessage initNet
      { id := "m1", type := "DATA_SHARE", sender := "a", recipient := "b",
        payload := none, timestamp := some 5, signature := none }
      = (false, initNet, []) ∧
    sendMessage
      { connections := [("b", { readyState := 1, sendFails := false })],
        heartbeats := ["b"] }
      { id := "m1", type := "DATA_SHARE", sender := "a", recipient := "b",
        payload := none, timestamp := some 5, signature := none }
      = (true,
         { connections := [("b", { readyState := 1, sendFails := false })],
           heartbeats := ["b"] },
         [NEvent.messageSent
           { id := "m1", type := "DATA_SHARE", sender := "a", recipient := "b",
             payload := none, timestamp := some 5, signature := none }]) :=
  ⟨(sendMessage_spec initNet _).2.1 rfl,
   (sendMessage_spec
      { connections := [("b", { readyState := 1, sendFails := false })],
        heartbeats := ["b"] } _).2.2.2.1
     { readyState := 1, sendFails := false } rfl rfl rfl⟩

/-- Claim C10: every inbound message that passes validation gets a generic
`messageReceived` event carrying the peer id and the message, whatever its
type; and a validated message of type `RESOURCE_RESPONSE` — a valid enum
literal with no `switch` case — is routed to `unknownMessageType`, with no
type-specific handler event. -/
theorem handleMessage_dispatch_spec (now : Int) (nodeId : String) (m : Message)
    (h : validateMessage m now = true) :
    NEvent.messageReceived nodeId m ∈ handleMessage now nodeId (some m) ∧
    (m.type = "RESOURCE_RESPONSE" →
      handleMessage now nodeId (some m) =
        [NEvent.unknownMessageType m, NEvent.messageReceived nodeId m]) := by
  constructor
  · simp [handleMessage, h]
  · intro ht
    simp [handleMessage, h, dispatchEvents, ht]

/-- Witness for C10: a concrete valid `RESOURCE_RESPONSE` message receives
exactly the `unknownMessageType` and `messageReceived` events. -/
theorem handleMessage_dispatch_spec_witness :
    NEvent.messageReceived "n"
      { id := "m2", type := "RESOURCE_RESPONSE", sender := "a",
        recipient := "b", payload := none, timestamp := some 5,
        signature := none }
      ∈ handleMessage 1000 "n"
        (some { id := "m2", type := "RESOURCE_RESPONSE", sender := "a",
                recipient := "b", payload := none, timestamp := some 5,
                signature := none }) ∧
    handleMessage 1000 "n"
      (some { id := "m2", type := "RESOURCE_RESPONSE", sender := "a",
              recipient := "b", payload := none, timestamp := some 5,
              signature := none })
      = [NEvent.unknownMessageType
          { id := "m2", type := "RESOURCE_RESPONSE", sender := "a",
            recipient := "b", payload := none, timestamp := some 5,
            signature := none },
         NEvent.messageReceived "n"
          { id := "m2", type := "RESOURCE_RESPONSE", sender := "a",
            recipient := "b", payload := none, timestamp := some 5,
            signature := none }] :=
  ⟨(handleMessage_dispatch_spec 1000 "n" _ (by rfl)).1,
   (handleMessage_dispatch_spec 1000 "n" _ (by rfl)).2 rfl⟩

theorem mem_addMem_self (l : List String) (x : String) : x ∈ addMem l x := by
  by_cases h : x ∈ l <;> simp [addMem, h]

theorem mem_addMem (l : List String) (x y : String) (h : y ∈ addMem l x) :
    y ∈ l ∨ y = x := by
  by_cases hx : x ∈ l
  · simp [addMem, hx] at h
    exact Or.inl h
  · simp [addMem, hx] at h
    exact h

theorem addMem_of_mem (l : List String) (x : String) (h : x ∈ l) :
    addMem l x = l := by
  simp [addMem, h]

theorem filter_ne_eq_nil (l : List String) (g : String)
    (h : ∀ x ∈ l, x = g) : (l.filter (fun x => x ≠ g)) = [] := by
  rw [List.filter_eq_nil_iff]
  intro a ha
  simp [h a ha]

theorem filter_ne_eq_self (l : List String) (g : String)
    (h : g ∉ l) : (l.filter (fun x => x ≠ g)) = l := by
  rw [List.filter_eq_self]
  intro a ha
  simp
  intro he
  exact h (he ▸ ha)

/-- Claim C8: starting from a state where the grantor's consent set for the
data type holds no grantee other than the one being granted, granting then
revoking that triple restores `checkConsent(grantor, dataType)` to false;
granting the same triple twice leaves the state exactly as after the first
grant (JS `Set.add` deduplicates); and revoking a non-member changes
nothing beyond the emitted `consentRevoked` event. -/
theorem consent_grant_revoke_spec (st : PrivState)
    (grantor grantee dataType : String)
    (h : ∀ x ∈ consentSetOf st grantor dataType, x = grantee) :
    checkConsent
      ((revokeConsent ((grantConsent st grantor grantee dataType).1)
        grantor grantee dataType).1) grantor dataType = false ∧
    ((grantConsent ((grantConsent st grantor grantee dataType).1)
        grantor grantee dataType).1) = (grantConsent st grantor grantee dataType).1 ∧
    (grantee ∉ consentSetOf st grantor dataType →
      (revokeConsent st grantor grantee dataType).1 = st) := by
  have hall : ∀ x ∈ addMem (consentSetOf st grantor dataType) grantee,
      x = grantee := by
    intro x hx
    rcases mem_addMem _ _ _ hx with hx' | hx'
    · exact h x hx'
    · exact hx'
  refine ⟨?_, ?_, ?_⟩
  · simp only [grantConsent, revokeConsent, consentSetOf] at *
    rw [getKey_setKey_self]
    simp only [checkConsent, consentSetOf]
    simp only [getKey_setKey_self, Option.getD_some, filter_ne_eq_nil _ _ hall]
    simp
  · simp only [grantConsent, consentSetOf] at *
    rw [getKey_setKey_self]
    simp only [Option.getD_some]
    rw [addMem_of_mem _ _ (mem_addMem_self _ _),
      setKey_eq_self _ _ _ (getKey_setKey_self _ _ _)]
  · intro hnm
    simp only [revokeConsent, consentSetOf] at *
    cases hg : getKey st.consentRegistry (grantor ++ ":" ++ dataType) with
    | none => rfl
    | some s =>
        rw [hg] at hnm
        simp only [Option.getD_some] at hnm
        simp only [hg]
        rw [filter_ne_eq_self _ _ hnm, setKey_eq_self _ _ _ hg]

/-- Witness for C8: from the fresh manager (empty consent registry),
grant-then-revoke of `("A","B","loc")` leaves `checkConsent("A","loc")`
false, double grant equals single grant, and revoking the non-member is a
state no-op. -/
theorem consent_grant_revoke_spec_witness :
    checkConsent
      ((revokeConsent ((grantConsent (initPriv []) "A" "B" "loc").1)
        "A" "B" "loc").1) "A" "loc" = false ∧
    ((grantConsent ((grantConsent (initPriv []) "A" "B" "loc").1)
        "A" "B" "loc").1) = (grantConsent (initPriv []) "A" "B" "loc").1 ∧
    (revokeConsent (initPriv []) "A" "B" "loc").1 = initPriv [] :=
  ⟨(consent_grant_revoke_spec (initPriv []) "A" "B" "loc" (by decide)).1,
   (consent_grant_revoke_spec (initPriv []) "A" "B" "loc" (by decide)).2.1,
   (consent_grant_revoke_spec (initPriv []) "A" "B" "loc" (by decide)).2.2
     (by decide)⟩

/-- Claim C2: for every JSON-serializable payload and every data type with
a policy present, decrypting the envelope produced by `encryptData`
returns the original payload: the tag always authenticates (it is the
deterministic tag of the produced ciphertext under the unchanged process
key), counter-mode decryption inverts encryption, and `JSON.parse` inverts
`JSON.stringify`. -/
theorem decrypt_encrypt_roundtrip (rng : Nat → List Nat) (st : PrivState)
    (data : JsonVal) (dataType : String)
    (h : (getKey st.policies dataType).isSome = true) :
    ∃ (env : EncryptedData) (st2 : PrivState),
      encryptData rng st data dataType = (some env, st2) ∧
      (decryptData st2 env).1 = some data := by
  cases hp : getKey st.policies dataType with
  | none => rw [hp] at h; simp at h
  | some p =>
      refine ⟨{ data := ctrXor st.key (rng st.rngCounter) 0 (serVal data),
                iv := rng st.rngCounter,
                tag := gcmTag st.key (rng st.rngCounter)
                  (ctrXor st.key (rng st.rngCounter) 0 (serVal data)) },
              { st with rngCounter := st.rngCounter + 1 }, ?_, ?_⟩
      · simp [encryptData, hp]
      · simp [decryptData, ctrXor_ctrXor, jsonParse_serVal]

/-- Witness for C2: a concrete round trip through a state holding one
policy. -/
theorem decrypt_encrypt_roundtrip_witness :
    ((getKey
        ({ initPriv [1, 2] with policies :=
            [("temp",
              { dataType := "temp", allowedOperations := ["read"],
                retentionPeriod := 3600,
                sharingPolicy :=
                  { allowedNodes := [], requireConsent := false,
                    minimumTrust := 0 } })] } : PrivState).policies
        "temp").isSome = true) ∧
    (∃ (env : EncryptedData) (st2 : PrivState),
      encryptData (fun n => [n, 5])
        ({ initPriv [1, 2] with policies :=
            [("temp",
              { dataType := "temp", allowedOperations := ["read"],
                retentionPeriod := 3600,
                sharingPolicy :=
                  { allowedNodes := [], requireConsent := false,
                    minimumTrust := 0 } })] } : PrivState)
        (JsonVal.arr [JsonVal.num 3, JsonVal.str "x"]) "temp"
        = (some env, st2) ∧
      (decryptData st2 env).1
        = some (JsonVal.arr [JsonVal.num 3, JsonVal.str "x"])) :=
  ⟨by decide,
   decrypt_encrypt_roundtrip (fun n => [n, 5]) _
     (JsonVal.arr [JsonVal.num 3, JsonVal.str "x"]) "temp" (by decide)⟩

/-- Claim C3: flipping any single bit of the `authTag` of an envelope
produced by `encryptData` makes `decryptData` fail closed: it returns the
null sentinel together with the `error` event, and never any (partial)
plaintext, because the flipped tag no longer matches the recomputed tag
and the authentication check precedes any decryption output. -/
theorem decrypt_flipped_tag_fails (rng : Nat → List Nat) (st : PrivState)
    (data : JsonVal) (dataType : String) (i j : Nat)
    (h : (getKey st.policies dataType).isSome = true) (hi : i < 16) :
    ∃ (env : EncryptedData) (st2 : PrivState),
      encryptData rng st data dataType = (some env, st2) ∧
      decryptData st2 { env with tag := flipBit env.tag i j }
        = (none, [PEvent.errorEvt]) := by
  cases hp : getKey st.policies dataType with
  | none => rw [hp] at h; simp at h
  | some p =>
      refine ⟨{ data := ctrXor st.key (rng st.rngCounter) 0 (serVal data),
                iv := rng st.rngCounter,
                tag := gcmTag st.key (rng st.rngCounter)
                  (ctrXor st.key (rng st.rngCounter) 0 (serVal data)) },
              { st with rngCounter := st.rngCounter + 1 }, ?_, ?_⟩
      · simp [encryptData, hp]
      · have hne : flipBit
            (gcmTag st.key (rng st.rngCounter)
              (ctrXor st.key (rng st.rngCounter) 0 (serVal data))) i j
            ≠ gcmTag st.key (rng st.rngCounter)
                (ctrXor st.key (rng st.rngCounter) 0 (serVal data)) := by
          apply flipBit_ne
          rw [length_gcmTag]
          exact hi
        simp [decryptData, hne]

/-- Witness for C3: a concrete envelope with bit 0 of tag byte 0 flipped
decrypts to the null sentinel with an `error` event. -/
theorem decrypt_flipped_tag_fails_witness :
    ((getKey
        ({ initPriv [9] with policies :=
            [("temp",
              { dataType := "temp", allowedOperations := ["read"],
                retentionPeriod := 3600,
                sharingPolicy :=
                  { allowedNodes := [], requireConsent := false,
                    minimumTrust := 0 } })] } : PrivState).policies
        "temp").isSome = true) ∧
    (∃ (env : EncryptedData) (st2 : PrivState),
      encryptData (fun n => [n])
        ({ initPriv [9] with policies :=
            [("temp",
              { dataType := "temp", allowedOperations := ["read"],
                retentionPeriod := 3600,
                sharingPolicy :=
                  { allowedNodes := [], requireConsent := false,
                    minimumTrust := 0 } })] } : PrivState)
        (JsonVal.str "hello") "temp"
        = (some env, st2) ∧
      decryptData st2 { env with tag := flipBit env.tag 0 0 }
        = (none, [PEvent.errorEvt])) :=
  ⟨by decide,
   decrypt_flipped_tag_fails (fun n => [n]) _ (JsonVal.str "hello") "temp" 0 0
     (by decide) (by decide)⟩

/-- Claim C9: two calls to `encryptData` with identical data under the same
process key produce envelopes with different `iv`s. Modelled from the spec:
`randomBytes(16)` is an ideal fresh-nonce source — an injective draw
stream indexed by the per-state draw counter, which each call advances, so
no two calls can see the same nonce. Each envelope's `iv` is exactly the
fresh draw of its own call, and nothing else. -/
theorem encrypt_iv_fresh (rng : Nat → List Nat)
    (hinj : Function.Injective rng) (st : PrivState) (data : JsonVal)
    (dataType : String) (h : (getKey st.policies dataType).isSome = true) :
    ∃ (env1 : EncryptedData) (st1 : PrivState) (env2 : EncryptedData)
      (st2 : PrivState),
      encryptData rng st data dataType = (some env1, st1) ∧
      encryptData rng st1 data dataType = (some env2, st2) ∧
      env1.iv ≠ env2.iv := by
  cases hp : getKey st.policies dataType with
  | none => rw [hp] at h; simp at h
  | some p =>
      refine ⟨{ data := ctrXor st.key (rng st.rngCounter) 0 (serVal data),
                iv := rng st.rngCounter,
                tag := gcmTag st.key (rng st.rngCounter)
                  (ctrXor st.key (rng st.rngCounter) 0 (serVal data)) },
              { st with rngCounter := st.rngCounter + 1 },
              { data := ctrXor st.key (rng (st.rngCounter + 1)) 0 (serVal data),
                iv := rng (st.rngCounter + 1),
                tag := gcmTag st.key (rng (st.rngCounter + 1))
                  (ctrXor st.key (rng (st.rngCounter + 1)) 0 (serVal data)) },
              { st with rngCounter := st.rngCounter + 2 }, ?_, ?_, ?_⟩
      · simp [encryptData, hp]
      · simp [encryptData, hp]
      · intro he
        have h2 := hinj he
        omega

/-- Witness for C9: with the injective draw stream `n ↦ [n]`, two
successive encryptions of the same payload yield different `iv`s. -/
theorem encrypt_iv_fresh_witness :
    Function.Injective (fun n : Nat => [n]) ∧
    (∃ (env1 : EncryptedData) (st1 : PrivState) (env2 : EncryptedData)
      (st2 : PrivState),
      encryptData (fun n : Nat => [n])
        ({ initPriv [4] with policies :=
            [("temp",
              { dataType := "temp", allowedOperations := ["read"],
                retentionPeriod := 3600,
                sharingPolicy :=
                  { allowedNodes := [], requireConsent := false,
                    minimumTrust := 0 } })] } : PrivState)
        (JsonVal.bool true) "temp" = (some env1, st1) ∧
      encryptData (fun n : Nat => [n]) st1 (JsonVal.bool true) "temp"
        = (some env2, st2) ∧
      env1.iv ≠ env2.iv) :=
  ⟨fun a b hab => by simpa using hab,
   encrypt_iv_fresh (fun n : Nat => [n]) (fun a b hab => by simpa using hab)
     _ (JsonVal.bool true) "temp" (by decide)⟩
